import Mathlib

/-!
Shallow embedding of `src/Assignment6_2409/app.js`: a Factory-Method demo
that builds typed product records from raw form data, keeps a registry of
creators keyed by type tag, and wires create/clone/remove UI actions.

JavaScript values that flow through the program (form fields, object
properties) are modelled by `JSValue`; JavaScript numbers by `JSNum`
(rationals plus NaN and the two infinities — every number the program
actually manipulates here is an exact decimal, so no floating-point
rounding is modelled).  The identifier `p_${Date.now()}_${floor(random*1000)}`
is modelled by threading an explicit `IdSeed` (the timestamp and the random
draw) into construction.
-/

namespace FactoryApp

/-- A JavaScript number: NaN, ±Infinity, or a finite value. -/
inductive JSNum where
  | nan
  | inf
  | ninf
  | num (q : ℚ)
  deriving DecidableEq

/-- A JavaScript value as used by this program: `undefined` (also standing
for an absent object property), a string, or a number. -/
inductive JSValue where
  | undefined
  | vstr (s : String)
  | vnum (n : JSNum)
  deriving DecidableEq

/-- JavaScript truthiness restricted to the values above: `undefined`, the
empty string, `0` and `NaN` are falsy, everything else truthy. -/
def jsTruthy : JSValue → Bool
  | .undefined => false
  | .vstr s => s ≠ ""
  | .vnum .nan => false
  | .vnum (.num q) => q ≠ 0
  | .vnum .inf => true
  | .vnum .ninf => true

/-- JavaScript `a || b`: `a` when truthy, else `b`. -/
def jsOr (a b : JSValue) : JSValue := if jsTruthy a then a else b

/-- Little-endian decimal digit characters of a natural number, driven by a
fuel argument so the kernel can evaluate it. -/
def natToRevDigits : ℕ → ℕ → List Char
  | 0, _ => []
  | fuel + 1, n =>
    if n < 10 then [Nat.digitChar n]
    else Nat.digitChar (n % 10) :: natToRevDigits fuel (n / 10)

/-- Decimal string of a natural number (JavaScript `String(n)` for an
integer-valued number). -/
def natRepr (n : ℕ) : String := (natToRevDigits (n + 1) n).reverse.asString

/-- Decimal value of a little-endian digit-character list; inverse of
`natToRevDigits`, used to prove `natRepr` injective. -/
def revDigitsVal : List Char → ℕ
  | [] => 0
  | c :: cs => (c.toNat - 48) + 10 * revDigitsVal cs

/-- Whitespace skipped by `parseFloat`. -/
def isWS (c : Char) : Bool :=
  c == ' ' || c == '\t' || c == '\n' || c == '\r' || c == '\x0b' || c == '\x0c'

/-- Decimal value of a (big-endian) digit-character list. -/
def digitsVal (ds : List Char) : ℕ :=
  ds.foldl (fun a c => a * 10 + (c.toNat - 48)) 0

/-- Exponent part of a number literal: after `e`/`E`, an optional sign and
digits; an `e` with no digits contributes nothing (the literal stops before
it), matching `parseFloat`'s longest-valid-prefix rule. -/
def expPartVal (cs : List Char) : ℤ :=
  match cs with
  | '+' :: ds =>
    (if (ds.takeWhile Char.isDigit).isEmpty then 0
     else (digitsVal (ds.takeWhile Char.isDigit) : ℤ))
  | '-' :: ds =>
    (if (ds.takeWhile Char.isDigit).isEmpty then 0
     else -(digitsVal (ds.takeWhile Char.isDigit) : ℤ))
  | ds =>
    (if (ds.takeWhile Char.isDigit).isEmpty then 0
     else (digitsVal (ds.takeWhile Char.isDigit) : ℤ))

/-- `10 ^ e` over ℚ for an integer exponent, by explicit cases so the kernel
evaluates it. -/
def qTenPow (e : ℤ) : ℚ :=
  if 0 ≤ e then ((10 : ℚ) ^ e.toNat) else ((10 : ℚ) ^ (-e).toNat)⁻¹

/-- The unsigned decimal literal `digits [. digits] [exponent]` at the head
of `cs`: its value, or `none` when no digit is present. -/
def parseDec (cs : List Char) : Option ℚ :=
  let ip := cs.takeWhile Char.isDigit
  let r1 := cs.dropWhile Char.isDigit
  let fp :=
    match r1 with
    | '.' :: rest => rest.takeWhile Char.isDigit
    | _ => []
  let r2 :=
    match r1 with
    | '.' :: rest => rest.dropWhile Char.isDigit
    | _ => r1
  if ip.isEmpty ∧ fp.isEmpty then none
  else
    let base : ℚ := (digitsVal ip : ℚ) + (digitsVal fp : ℚ) / 10 ^ fp.length
    let e : ℤ :=
      match r2 with
      | 'e' :: rest => expPartVal rest
      | 'E' :: rest => expPartVal rest
      | _ => 0
    some (base * qTenPow e)

/-- `parseFloat` on a string: skip whitespace, optional sign, `Infinity` or
a decimal literal; `NaN` when nothing parses. -/
def parseFloatStr (s : String) : JSNum :=
  let afterSign : Bool → List Char → JSNum := fun neg cs =>
    if "Infinity".toList.isPrefixOf cs then (if neg then .ninf else .inf)
    else
      match parseDec cs with
      | none => .nan
      | some q => .num (if neg then -q else q)
  match s.toList.dropWhile isWS with
  | '+' :: rest => afterSign false rest
  | '-' :: rest => afterSign true rest
  | cs => afterSign false cs

/-- JavaScript `parseFloat` on the values of this program: a number is
returned unchanged (its decimal rendering reparses to itself), `undefined`
gives NaN, a string is parsed. -/
def parseFloat : JSValue → JSNum
  | .vnum n => n
  | .undefined => .nan
  | .vstr s => parseFloatStr s

/-- `n || 0` on a number: NaN and 0 give 0, anything else is kept — the
price normalization `parseFloat(price) || 0` of the `Product` constructor. -/
def numOr0 (n : JSNum) : JSNum :=
  match n with
  | .nan => .num 0
  | .num q => if q = 0 then .num 0 else .num q
  | .inf => .inf
  | .ninf => .ninf

/-- Left-pad with `'0'` to length `k` (fraction rendering). -/
def padZeros (s : String) (k : ℕ) : String :=
  (List.replicate (k - s.length) '0').asString ++ s

/-- Multiplicity of the prime `p` in `n`, fuel-driven. -/
def pMult (p : ℕ) : ℕ → ℕ → ℕ
  | 0, _ => 0
  | fuel + 1, n => if n % p = 0 ∧ n ≠ 0 ∧ 1 < p then 1 + pMult p fuel (n / p) else 0

/-- JavaScript `String(n)` for a number.  Finite values of this program are
exact decimals, rendered with no trailing fraction zeros; the placeholder
branch for a non-decimal rational is never hit by values the program
builds. -/
def numToString : JSNum → String
  | .nan => "NaN"
  | .inf => "Infinity"
  | .ninf => "-Infinity"
  | .num q =>
    if q = 0 then "0"
    else
      let sgn := if q < 0 then "-" else ""
      let a := |q|
      let d := a.den
      let k := max (pMult 2 d d) (pMult 5 d d)
      if d ∣ 10 ^ k then
        let m := a.num.natAbs * (10 ^ k / d)
        if k = 0 then sgn ++ natRepr m
        else sgn ++ natRepr (m / 10 ^ k) ++ "." ++ padZeros (natRepr (m % 10 ^ k)) k
      else sgn ++ natRepr a.num.natAbs ++ "/" ++ natRepr d

/-- `Number.prototype.toFixed(2)`: sign, then the absolute value rounded to
two decimals, ties away from zero. -/
def toFixed2 : JSNum → String
  | .nan => "NaN"
  | .inf => "Infinity"
  | .ninf => "-Infinity"
  | .num q =>
    let sgn := if q < 0 then "-" else ""
    let n := ((|q| * 100 + 1 / 2).floor).toNat
    sgn ++ natRepr (n / 100) ++ "." ++ padZeros (natRepr (n % 100)) 2

/-- JavaScript string coercion of an interpolated value. -/
def jsToString : JSValue → String
  | .undefined => "undefined"
  | .vstr s => s
  | .vnum n => numToString n

/-- A raw field record handed to a constructor (a JS object literal); an
absent property reads as `undefined`. -/
structure RawData where
  name : JSValue := .undefined
  price : JSValue := .undefined
  brand : JSValue := .undefined
  warrantyYears : JSValue := .undefined
  size : JSValue := .undefined
  material : JSValue := .undefined
  author : JSValue := .undefined
  pages : JSValue := .undefined
  deriving DecidableEq

/-- The two nondeterministic draws behind the generated identifier:
`Date.now()` and `Math.floor(Math.random()*1000)`. -/
structure IdSeed where
  now : ℕ
  rand : ℕ
  deriving DecidableEq

/-- The identifier `p_${Date.now()}_${Math.floor(Math.random()*1000)}`. -/
def mkId (seed : IdSeed) : String :=
  "p_" ++ natRepr seed.now ++ "_" ++ natRepr seed.rand

/-- The product variants of the class hierarchy. -/
inductive Variant where
  | generic
  | electronics
  | clothing
  | book
  deriving DecidableEq

/-- A constructed product.  One constructor per class; each carries the base
fields (`name`, `price`, `id`) and its own extra fields. -/
inductive Product where
  | generic (name : JSValue) (price : JSNum) (id : String)
  | electronics (name : JSValue) (price : JSNum) (id : String)
      (brand warrantyYears : JSValue)
  | clothing (name : JSValue) (price : JSNum) (id : String)
      (size material : JSValue)
  | book (name : JSValue) (price : JSNum) (id : String)
      (author pages : JSValue)
  deriving DecidableEq

def Product.name : Product → JSValue
  | .generic n _ _ => n
  | .electronics n _ _ _ _ => n
  | .clothing n _ _ _ _ => n
  | .book n _ _ _ _ => n

def Product.price : Product → JSNum
  | .generic _ p _ => p
  | .electronics _ p _ _ _ => p
  | .clothing _ p _ _ _ => p
  | .book _ p _ _ _ => p

def Product.id : Product → String
  | .generic _ _ i => i
  | .electronics _ _ i _ _ => i
  | .clothing _ _ i _ _ => i
  | .book _ _ i _ _ => i

def Product.variant : Product → Variant
  | .generic _ _ _ => .generic
  | .electronics _ _ _ _ _ => .electronics
  | .clothing _ _ _ _ _ => .clothing
  | .book _ _ _ _ _ => .book

/-- Property read `prod.brand` (`undefined` on the other variants). -/
def Product.brand : Product → JSValue
  | .electronics _ _ _ b _ => b
  | _ => .undefined

/-- Property read `prod.warrantyYears`. -/
def Product.warrantyYears : Product → JSValue
  | .electronics _ _ _ _ w => w
  | _ => .undefined

/-- Property read `prod.size`. -/
def Product.size : Product → JSValue
  | .clothing _ _ _ sz _ => sz
  | _ => .undefined

/-- Property read `prod.material`. -/
def Product.material : Product → JSValue
  | .clothing _ _ _ _ m => m
  | _ => .undefined

/-- Property read `prod.author`. -/
def Product.author : Product → JSValue
  | .book _ _ _ a _ => a
  | _ => .undefined

/-- Property read `prod.pages`. -/
def Product.pages : Product → JSValue
  | .book _ _ _ _ pg => pg
  | _ => .undefined

/-- `meta()`: the variant-specific fields only, as a raw record (the base
class returns `{}`). -/
def Product.meta : Product → RawData
  | .generic _ _ _ => {}
  | .electronics _ _ _ b w => { brand := b, warrantyYears := w }
  | .clothing _ _ _ sz m => { size := sz, material := m }
  | .book _ _ _ a pg => { author := a, pages := pg }

/-- The base `Product` constructor's price normalization
`parseFloat(price) || 0`. -/
def normPrice (price : JSValue) : JSNum := numOr0 (parseFloat price)

/-- `new ElectronicsProduct(data)`. -/
def ElectronicsProduct.new (seed : IdSeed) (data : RawData) : Product :=
  .electronics data.name (normPrice data.price) (mkId seed)
    (jsOr data.brand (.vstr "Unknown"))
    (jsOr data.warrantyYears (.vnum (.num 1)))

/-- `new ClothingProduct(data)`. -/
def ClothingProduct.new (seed : IdSeed) (data : RawData) : Product :=
  .clothing data.name (normPrice data.price) (mkId seed)
    (jsOr data.size (.vstr "M"))
    (jsOr data.material (.vstr "Unknown"))

/-- `new BookProduct(data)`. -/
def BookProduct.new (seed : IdSeed) (data : RawData) : Product :=
  .book data.name (normPrice data.price) (mkId seed)
    (jsOr data.author (.vstr "Unknown"))
    (jsOr data.pages (.vnum (.num 0)))

/-- `describe()` of each variant, the string templates of the source. -/
def Product.describe : Product → String
  | .generic n p _ =>
    jsToString n ++ " — ₹" ++ toFixed2 p
  | .electronics n p _ b w =>
    jsToString n ++ " (" ++ jsToString b ++ ") — ₹" ++ toFixed2 p
      ++ " — " ++ jsToString w ++ "yr warranty"
  | .clothing n p _ sz m =>
    jsToString n ++ " — Size: " ++ jsToString sz ++ " — " ++ jsToString m
      ++ " — ₹" ++ toFixed2 p
  | .book n p _ a pg =>
    "\"" ++ jsToString n ++ "\" by " ++ jsToString a ++ " — " ++ jsToString pg
      ++ " pages — ₹" ++ toFixed2 p

/-- The creator classes: the abstract `ProductCreator` base and its three
concrete subclasses. -/
inductive ProductCreator where
  | base
  | electronicsCreator
  | clothingCreator
  | bookCreator
  deriving DecidableEq

/-- The two errors the program throws, told apart by their (always distinct)
messages; `message` below renders the exact source strings. -/
inductive JSError where
  | unregisteredType (tag : String)
  | mustOverride
  deriving DecidableEq

/-- The `message` property of each thrown `Error`. -/
def JSError.message : JSError → String
  | .unregisteredType tag => "No creator registered for type \"" ++ tag ++ "\""
  | .mustOverride => "factoryMethod() must be implemented by subclasses"

/-- `factoryMethod(data)`: the base class throws, each subclass builds its
variant. -/
def ProductCreator.factoryMethod
    (c : ProductCreator) (seed : IdSeed) (data : RawData) :
    Except JSError Product :=
  match c with
  | .base => .error .mustOverride
  | .electronicsCreator => .ok (ElectronicsProduct.new seed data)
  | .clothingCreator => .ok (ClothingProduct.new seed data)
  | .bookCreator => .ok (BookProduct.new seed data)

/-- `create(data)` of `ProductCreator`: delegates to `factoryMethod`. -/
def ProductCreator.create
    (c : ProductCreator) (seed : IdSeed) (data : RawData) :
    Except JSError Product :=
  c.factoryMethod seed data

/-- The registry's backing store, a JS `Map` over string keys: an
association list in insertion order. -/
abbrev Registry := List (String × ProductCreator)

/-- `Map.prototype.get`. -/
def mapGet : Registry → String → Option ProductCreator
  | [], _ => none
  | (k, v) :: rest, t => if k = t then some v else mapGet rest t

/-- `Map.prototype.set`: replace in place when the key is present, else
append. -/
def mapSet : Registry → String → ProductCreator → Registry
  | [], t, c => [(t, c)]
  | (k, v) :: rest, t, c =>
    if k = t then (k, c) :: rest else (k, v) :: mapSet rest t c

/-- `Map.prototype.delete` (drops the entry when present). -/
def mapDelete : Registry → String → Registry
  | [], _ => []
  | (k, v) :: rest, t => if k = t then rest else (k, v) :: mapDelete rest t

/-- `ProductFactory.create(type, data)`: look the creator up, throw the
unregistered-type error naming the tag when absent, else delegate. -/
def ProductFactory.create
    (reg : Registry) (tag : String) (seed : IdSeed) (data : RawData) :
    Except JSError Product :=
  match mapGet reg tag with
  | none => .error (.unregisteredType tag)
  | some c => c.create seed data

/-- `ProductFactory.register(type, creatorInstance)`. -/
def ProductFactory.register (reg : Registry) (tag : String) (c : ProductCreator) :
    Registry :=
  mapSet reg tag c

/-- `ProductFactory.unregister(type)`. -/
def ProductFactory.unregister (reg : Registry) (tag : String) : Registry :=
  mapDelete reg tag

/-- `ProductFactory.availableTypes()`: the keys in insertion order. -/
def ProductFactory.availableTypes (reg : Registry) : List String :=
  reg.map Prod.fst

/-- The registry as initialized by the IIFE: the three built-in creators,
registered in this order. -/
def builtinRegistry : Registry :=
  [("electronics", .electronicsCreator),
   ("clothing", .clothingCreator),
   ("book", .bookCreator)]

/-- The create-button handler's effect on the in-memory `created` list: on
success the product is appended, on failure the list is untouched and the
message is alerted. -/
def uiCreateStep (reg : Registry) (created : List Product)
    (tag : String) (seed : IdSeed) (data : RawData) :
    List Product × Option String :=
  match ProductFactory.create reg tag seed data with
  | .ok p => (created ++ [p], none)
  | .error err => (created, some err.message)

/-- The `instanceof` chain of the clone handler: the tag re-used for
re-creation, `none` (early return) for a generic product. -/
def variantTag : Product → Option String
  | .electronics _ _ _ _ _ => some "electronics"
  | .clothing _ _ _ _ _ => some "clothing"
  | .book _ _ _ _ _ => some "book"
  | .generic _ _ _ => none

/-- `Object.assign({}, prod.meta(), { name: prod.name + " (clone)",
price: prod.price })`. -/
def cloneData (p : Product) : RawData :=
  { p.meta with
    name := .vstr (jsToString p.name ++ " (clone)"),
    price := .vnum p.price }

/-- The clone click handler: look the variant tag up, re-run creation with
the copied fields; `none` when the product is generic. -/
def cloneStep (reg : Registry) (seed : IdSeed) (p : Product) :
    Option (Except JSError Product) :=
  match variantTag p with
  | none => none
  | some tag => some (ProductFactory.create reg tag seed (cloneData p))

/-! ## Helper lemmas -/

lemma digitChar_val (m : ℕ) (hm : m < 10) : (Nat.digitChar m).toNat - 48 = m := by
  interval_cases m <;> decide

lemma digitChar_isDigit (m : ℕ) (hm : m < 10) : (Nat.digitChar m).isDigit = true := by
  interval_cases m <;> decide

lemma revDigitsVal_natToRevDigits :
    ∀ (fuel n : ℕ), n < fuel → revDigitsVal (natToRevDigits fuel n) = n := by
  intro fuel
  induction fuel with
  | zero => intro n hn; omega
  | succ fuel ih =>
    intro n hn
    rw [natToRevDigits]
    by_cases h10 : n < 10
    · simp only [h10, if_true, revDigitsVal]
      rw [digitChar_val n h10]
      omega
    · simp only [h10, if_false, revDigitsVal]
      rw [digitChar_val (n % 10) (Nat.mod_lt _ (by norm_num)), ih (n / 10) (by omega)]
      omega

lemma natRepr_inj {a b : ℕ} (h : natRepr a = natRepr b) : a = b := by
  unfold natRepr at h
  have hl : (natToRevDigits (a + 1) a).reverse = (natToRevDigits (b + 1) b).reverse :=
    congrArg String.data h
  have hll := congrArg List.reverse hl
  simp only [List.reverse_reverse] at hll
  have := congrArg revDigitsVal hll
  rwa [revDigitsVal_natToRevDigits _ a (Nat.lt_succ_self a),
    revDigitsVal_natToRevDigits _ b (Nat.lt_succ_self b)] at this

lemma natToRevDigits_digits :
    ∀ (fuel n : ℕ), ∀ c ∈ natToRevDigits fuel n, c.isDigit = true := by
  intro fuel
  induction fuel with
  | zero => intro n c hc; simp [natToRevDigits] at hc
  | succ fuel ih =>
    intro n c hc
    rw [natToRevDigits] at hc
    by_cases h10 : n < 10
    · simp only [h10, if_true, List.mem_singleton] at hc
      subst hc; exact digitChar_isDigit n h10
    · simp only [h10, if_false, List.mem_cons] at hc
      rcases hc with hc | hc
      · subst hc; exact digitChar_isDigit _ (Nat.mod_lt _ (by norm_num))
      · exact ih _ _ hc

lemma natRepr_no_underscore {n : ℕ} : '_' ∉ (natRepr n).data := by
  unfold natRepr
  intro hmem
  have : ('_' : Char).isDigit = true := by
    refine natToRevDigits_digits (n + 1) n _ ?_
    simpa [List.asString] using hmem
  simp at this

lemma append_underscore_inj :
    ∀ (la lc lb ld : List Char), '_' ∉ la → '_' ∉ lc →
      la ++ '_' :: lb = lc ++ '_' :: ld → la = lc ∧ lb = ld := by
  intro la
  induction la with
  | nil =>
    intro lc lb ld _ hc h
    cases lc with
    | nil => simpa using h
    | cons x xs =>
      simp only [List.nil_append, List.cons_append, List.cons.injEq] at h
      exact absurd (h.1 ▸ List.mem_cons_self x xs) hc
  | cons a as ih =>
    intro lc lb ld ha hc h
    cases lc with
    | nil =>
      simp only [List.cons_append, List.nil_append, List.cons.injEq] at h
      exact absurd (h.1 ▸ List.mem_cons_self a as) ha
    | cons x xs =>
      simp only [List.cons_append, List.cons.injEq] at h
      obtain ⟨rfl, h2⟩ := h
      obtain ⟨h3, h4⟩ := ih xs lb ld (fun hm => ha (List.mem_cons_of_mem _ hm))
        (fun hm => hc (List.mem_cons_of_mem _ hm)) h2
      exact ⟨by rw [h3], h4⟩

lemma string_append_data (s t : String) : (s ++ t).data = s.data ++ t.data := rfl

lemma mkId_inj {s₁ s₂ : IdSeed} (h : mkId s₁ = mkId s₂) : s₁ = s₂ := by
  unfold mkId at h
  have hd := congrArg String.data h
  simp only [string_append_data] at hd
  have hd' : (natRepr s₁.now).data ++ '_' :: (natRepr s₁.rand).data
      = (natRepr s₂.now).data ++ '_' :: (natRepr s₂.rand).data := by
    have : ('p' :: '_' :: ((natRepr s₁.now).data ++ '_' :: (natRepr s₁.rand).data))
        = ('p' :: '_' :: ((natRepr s₂.now).data ++ '_' :: (natRepr s₂.rand).data)) := by
      simpa using hd
    simpa using this
  obtain ⟨h1, h2⟩ := append_underscore_inj _ _ _ _ natRepr_no_underscore
    natRepr_no_underscore hd'
  have e1 : s₁.now = s₂.now := natRepr_inj (by
    have := congrArg List.asString h1
    simpa [List.asString] using this)
  have e2 : s₁.rand = s₂.rand := natRepr_inj (by
    have := congrArg List.asString h2
    simpa [List.asString] using this)
  cases s₁; cases s₂; simp_all

lemma mapGet_mapSet_self (reg : Registry) (t : String) (c : ProductCreator) :
    mapGet (mapSet reg t c) t = some c := by
  induction reg with
  | nil => simp [mapSet, mapGet]
  | cons kv rest ih =>
    obtain ⟨k, v⟩ := kv
    by_cases hk : k = t
    · simp [mapSet, mapGet, hk]
    · simp [mapSet, mapGet, hk, ih]

lemma mapSet_mapSet (reg : Registry) (t : String) (c c' : ProductCreator) :
    mapSet (mapSet reg t c) t c' = mapSet reg t c' := by
  induction reg with
  | nil => simp [mapSet]
  | cons kv rest ih =>
    obtain ⟨k, v⟩ := kv
    by_cases hk : k = t
    · simp [mapSet, hk]
    · simp [mapSet, hk, ih]

lemma mapGet_none_not_mem (reg : Registry) (t : String)
    (h : mapGet reg t = none) : t ∉ reg.map Prod.fst := by
  induction reg with
  | nil => simp
  | cons kv rest ih =>
    obtain ⟨k, v⟩ := kv
    by_cases hk : k = t
    · simp [mapGet, hk] at h
    · rw [mapGet, if_neg hk] at h
      simp only [List.map_cons, List.mem_cons]
      push_neg
      exact ⟨fun he => hk he.symm, ih h⟩

lemma not_mem_mapGet_none (reg : Registry) (t : String)
    (h : t ∉ reg.map Prod.fst) : mapGet reg t = none := by
  induction reg with
  | nil => rfl
  | cons kv rest ih =>
    obtain ⟨k, v⟩ := kv
    simp only [List.map_cons, List.mem_cons] at h
    push_neg at h
    rw [mapGet, if_neg (fun he => h.1 he.symm)]
    exact ih h.2

lemma mapGet_mapDelete_self (reg : Registry) (t : String)
    (hnd : (reg.map Prod.fst).Nodup) : mapGet (mapDelete reg t) t = none := by
  induction reg with
  | nil => rfl
  | cons kv rest ih =>
    obtain ⟨k, v⟩ := kv
    simp only [List.map_cons, List.nodup_cons] at hnd
    by_cases hk : k = t
    · rw [mapDelete, if_pos hk]
      exact not_mem_mapGet_none rest t (fun hm => hnd.1 (hk ▸ hm))
    · rw [mapDelete, if_neg hk, mapGet, if_neg hk]
      exact ih hnd.2

lemma mapDelete_not_mem (reg : Registry) (t : String)
    (h : mapGet reg t = none) : mapDelete reg t = reg := by
  induction reg with
  | nil => simp [mapDelete]
  | cons kv rest ih =>
    obtain ⟨k, v⟩ := kv
    by_cases hk : k = t
    · simp [mapGet, hk] at h
    · simp only [mapGet, hk, if_false] at h
      simp [mapDelete, hk, ih h]

lemma jsOr_jsOr_self (a b : JSValue) : jsOr (jsOr a b) b = jsOr a b := by
  unfold jsOr
  by_cases ha : jsTruthy a = true
  · simp [ha]
  · simp only [Bool.not_eq_true] at ha
    simp [ha]

lemma numOr0_ne_nan (n : JSNum) : numOr0 n ≠ .nan := by
  cases n with
  | num q => by_cases hq : q = 0 <;> simp [numOr0, hq]
  | _ => simp [numOr0]

lemma numOr0_idem (n : JSNum) : numOr0 (numOr0 n) = numOr0 n := by
  cases n with
  | num q => by_cases hq : q = 0 <;> simp [numOr0, hq]
  | _ => simp [numOr0]

lemma normPrice_ne_nan (v : JSValue) : normPrice v ≠ .nan :=
  numOr0_ne_nan _

lemma normPrice_of_nan (v : JSValue) (h : parseFloat v = .nan) :
    normPrice v = .num 0 := by
  simp [normPrice, h, numOr0]

lemma normPrice_of_truthy (v : JSValue) (h : jsTruthy (.vnum (parseFloat v)) = true) :
    normPrice v = parseFloat v := by
  unfold normPrice numOr0
  cases hp : parseFloat v with
  | nan => rw [hp] at h; simp [jsTruthy] at h
  | num q =>
    rw [hp] at h
    simp only [jsTruthy, decide_eq_true_eq] at h
    simp [h]
  | inf => rfl
  | ninf => rfl

lemma create_ok_price {c : ProductCreator} {seed : IdSeed} {data : RawData}
    {p : Product} (h : c.create seed data = .ok p) :
    p.price = normPrice data.price := by
  cases c with
  | base => simp [ProductCreator.create, ProductCreator.factoryMethod] at h
  | electronicsCreator =>
    simp only [ProductCreator.create, ProductCreator.factoryMethod,
      Except.ok.injEq] at h
    subst h; rfl
  | clothingCreator =>
    simp only [ProductCreator.create, ProductCreator.factoryMethod,
      Except.ok.injEq] at h
    subst h; rfl
  | bookCreator =>
    simp only [ProductCreator.create, ProductCreator.factoryMethod,
      Except.ok.injEq] at h
    subst h; rfl

/-! ## Claim theorems -/

/-- C1, counterexample: the raw record `{name: "X", price: "-5"}` parses to
the negative price `-5`, which `|| 0` keeps (it is truthy), so the
constructed product's price is negative — the claimed non-negativity fails. -/
theorem negative_price_cex :
    (ProductFactory.create builtinRegistry "book" ⟨0, 0⟩
        { name := .vstr "X", price := .vstr "-5" }).toOption.map Product.price
      = some (.num (-5))
    ∧ (-5 : ℚ) < 0 := by
  constructor
  · with_unfolding_all rfl
  · norm_num

/-- C1 (amended): for every product constructed through the registry, the
price is never NaN, and it equals 0 whenever the raw price is missing or
not parseable as a number; when the parsed price is truthy (nonzero,
non-NaN) it is kept as parsed — which may be negative or infinite. -/
theorem price_normalization_amended (reg : Registry) (tag : String)
    (seed : IdSeed) (data : RawData) (p : Product)
    (h : ProductFactory.create reg tag seed data = .ok p) :
    p.price ≠ .nan
    ∧ (parseFloat data.price = .nan → p.price = .num 0)
    ∧ (data.price = .undefined → p.price = .num 0)
    ∧ (jsTruthy (.vnum (parseFloat data.price)) = true →
        p.price = parseFloat data.price) := by
  have hp : p.price = normPrice data.price := by
    unfold ProductFactory.create at h
    cases hm : mapGet reg tag with
    | none => rw [hm] at h; simp at h
    | some c => rw [hm] at h; exact create_ok_price h
  refine ⟨?_, ?_, ?_, ?_⟩
  · rw [hp]; exact normPrice_ne_nan _
  · intro hn; rw [hp]; exact normPrice_of_nan _ hn
  · intro hu; rw [hp]; exact normPrice_of_nan _ (by rw [hu]; rfl)
  · intro ht; rw [hp]; exact normPrice_of_truthy _ ht

theorem price_normalization_amended_witness :
    (BookProduct.new ⟨0, 0⟩ { name := .vstr "X", price := .vstr "bad" }).price ≠ .nan
    ∧ (parseFloat (JSValue.vstr "bad") = .nan →
        (BookProduct.new ⟨0, 0⟩ { name := .vstr "X", price := .vstr "bad" }).price = .num 0)
    ∧ (JSValue.vstr "bad" = .undefined →
        (BookProduct.new ⟨0, 0⟩ { name := .vstr "X", price := .vstr "bad" }).price = .num 0)
    ∧ (jsTruthy (.vnum (parseFloat (JSValue.vstr "bad"))) = true →
        (BookProduct.new ⟨0, 0⟩ { name := .vstr "X", price := .vstr "bad" }).price
          = parseFloat (JSValue.vstr "bad")) :=
  price_normalization_amended builtinRegistry "book" ⟨0, 0⟩
    { name := .vstr "X", price := .vstr "bad" }
    (BookProduct.new ⟨0, 0⟩ { name := .vstr "X", price := .vstr "bad" })
    (by with_unfolding_all rfl)

/-- C2: creating with a tag the registry does not map fails with the
unregistered-type error, whose message names the tag; the failure leaves
the in-memory product collection untouched (and `create` reads, never
writes, the registry mapping). -/
theorem create_unknown_tag (reg : Registry) (tag : String) (seed : IdSeed)
    (data : RawData) (created : List Product)
    (h : mapGet reg tag = none) :
    ProductFactory.create reg tag seed data = .error (.unregisteredType tag)
    ∧ (JSError.unregisteredType tag).message
        = "No creator registered for type \"" ++ tag ++ "\""
    ∧ uiCreateStep reg created tag seed data
        = (created, some (JSError.unregisteredType tag).message) := by
  refine ⟨?_, rfl, ?_⟩
  · unfold ProductFactory.create; rw [h]
  · unfold uiCreateStep ProductFactory.create; rw [h]

theorem create_unknown_tag_witness :
    ProductFactory.create builtinRegistry "unknown" ⟨0, 0⟩ {}
      = .error (.unregisteredType "unknown")
    ∧ (JSError.unregisteredType "unknown").message
        = "No creator registered for type \"" ++ "unknown" ++ "\""
    ∧ uiCreateStep builtinRegistry [] "unknown" ⟨0, 0⟩ {}
        = ([], some (JSError.unregisteredType "unknown").message) :=
  create_unknown_tag builtinRegistry "unknown" ⟨0, 0⟩ {} [] (by decide)

/-- C3: registering then creating delegates to the registered creator;
registration overwrites any prior creator for the tag; unregistering then
creating fails with the unregistered-type error; unregistering an unmapped
tag is a no-op. -/
theorem registry_algebra (reg : Registry) (t : String) (c c' : ProductCreator)
    (seed : IdSeed) (d : RawData)
    (hnd : (ProductFactory.availableTypes reg).Nodup) :
    ProductFactory.create (ProductFactory.register reg t c) t seed d = c.create seed d
    ∧ mapGet (ProductFactory.register reg t c) t = some c
    ∧ ProductFactory.register (ProductFactory.register reg t c) t c'
        = ProductFactory.register reg t c'
    ∧ ProductFactory.create (ProductFactory.unregister reg t) t seed d
        = .error (.unregisteredType t)
    ∧ (mapGet reg t = none → ProductFactory.unregister reg t = reg) := by
  refine ⟨?_, mapGet_mapSet_self reg t c, mapSet_mapSet reg t c c', ?_,
    mapDelete_not_mem reg t⟩
  · unfold ProductFactory.create ProductFactory.register
    rw [mapGet_mapSet_self]
  · unfold ProductFactory.create ProductFactory.unregister
    rw [mapGet_mapDelete_self reg t hnd]

theorem registry_algebra_witness :
    ProductFactory.create (ProductFactory.register builtinRegistry "widget" .electronicsCreator)
        "widget" ⟨0, 0⟩ {} = ProductCreator.electronicsCreator.create ⟨0, 0⟩ {}
    ∧ mapGet (ProductFactory.register builtinRegistry "widget" .electronicsCreator)
        "widget" = some .electronicsCreator
    ∧ ProductFactory.register
        (ProductFactory.register builtinRegistry "widget" .electronicsCreator)
        "widget" .bookCreator
        = ProductFactory.register builtinRegistry "widget" .bookCreator
    ∧ ProductFactory.create (ProductFactory.unregister builtinRegistry "widget")
        "widget" ⟨0, 0⟩ {} = .error (.unregisteredType "widget")
    ∧ (mapGet builtinRegistry "widget" = none →
        ProductFactory.unregister builtinRegistry "widget" = builtinRegistry) :=
  registry_algebra builtinRegistry "widget" .electronicsCreator .bookCreator
    ⟨0, 0⟩ {} (by decide)

/-- C4: each built-in tag creates a product of the matching variant, for
every raw record, and is listed by `availableTypes()`. -/
theorem builtin_tags_create (seed : IdSeed) (data : RawData) :
    ((ProductFactory.create builtinRegistry "electronics" seed data).toOption.map
        Product.variant = some .electronics
      ∧ "electronics" ∈ ProductFactory.availableTypes builtinRegistry)
    ∧ ((ProductFactory.create builtinRegistry "clothing" seed data).toOption.map
        Product.variant = some .clothing
      ∧ "clothing" ∈ ProductFactory.availableTypes builtinRegistry)
    ∧ ((ProductFactory.create builtinRegistry "book" seed data).toOption.map
        Product.variant = some .book
      ∧ "book" ∈ ProductFactory.availableTypes builtinRegistry) :=
  ⟨⟨rfl, by decide⟩, ⟨rfl, by decide⟩, ⟨rfl, by decide⟩⟩

lemma builtin_create_cases (tag : String) (seed : IdSeed) (data : RawData)
    (p : Product)
    (h : ProductFactory.create builtinRegistry tag seed data = .ok p) :
    (tag = "electronics" ∧ p = ElectronicsProduct.new seed data)
    ∨ (tag = "clothing" ∧ p = ClothingProduct.new seed data)
    ∨ (tag = "book" ∧ p = BookProduct.new seed data) := by
  unfold ProductFactory.create builtinRegistry at h
  simp only [mapGet] at h
  by_cases h1 : "electronics" = tag
  · rw [if_pos h1] at h
    simp only [ProductCreator.create, ProductCreator.factoryMethod,
      Except.ok.injEq] at h
    exact Or.inl ⟨h1.symm, h.symm⟩
  · rw [if_neg h1] at h
    by_cases h2 : "clothing" = tag
    · rw [if_pos h2] at h
      simp only [ProductCreator.create, ProductCreator.factoryMethod,
        Except.ok.injEq] at h
      exact Or.inr (Or.inl ⟨h2.symm, h.symm⟩)
    · rw [if_neg h2] at h
      by_cases h3 : "book" = tag
      · rw [if_pos h3] at h
        simp only [ProductCreator.create, ProductCreator.factoryMethod,
          Except.ok.injEq] at h
        exact Or.inr (Or.inr ⟨h3.symm, h.symm⟩)
      · rw [if_neg h3] at h
        simp at h

/-- The book example record of the spec, used as a concrete input. -/
def duneData : RawData :=
  { name := .vstr "Dune", price := .vstr "12.5",
    author := .vstr "Herbert", pages := .vnum (.num 412) }

/-- C5, counterexample: when the clone's identifier draw (timestamp and
random value) coincides with the original's — which nothing prevents — the
clone's identifier equals the original's, against the claimed "identifier
different from the original's". -/
theorem clone_same_seed_id_cex :
    ((cloneStep builtinRegistry ⟨5, 7⟩ (BookProduct.new ⟨5, 7⟩ duneData)).bind
        Except.toOption).map Product.id
      = some (BookProduct.new ⟨5, 7⟩ duneData).id := by
  with_unfolding_all rfl

/-- C5 (amended): cloning a product created through the startup registry
yields a product of the same variant, with equal metadata fields, equal
price, name equal to the original name followed by " (clone)", and an
identifier that differs from the original's whenever the identifier draw
(timestamp, random value) differs. -/
theorem clone_spec_amended (tag : String) (s₁ s₂ : IdSeed) (data : RawData)
    (p : Product)
    (h : ProductFactory.create builtinRegistry tag s₁ data = .ok p) :
    ∃ q, cloneStep builtinRegistry s₂ p = some (.ok q)
      ∧ q.variant = p.variant
      ∧ q.meta = p.meta
      ∧ q.price = p.price
      ∧ q.name = .vstr (jsToString p.name ++ " (clone)")
      ∧ (s₁ ≠ s₂ → q.id ≠ p.id) := by
  rcases builtin_create_cases tag s₁ data p h with ⟨_, rfl⟩ | ⟨_, rfl⟩ | ⟨_, rfl⟩
  · refine ⟨_, rfl, rfl, ?_, ?_, rfl, ?_⟩
    · simp [ElectronicsProduct.new, Product.meta, cloneData, jsOr_jsOr_self]
    · simp [ElectronicsProduct.new, Product.price, cloneData, normPrice,
        parseFloat, numOr0_idem]
    · intro hne hid
      exact hne (mkId_inj (show mkId s₂ = mkId s₁ from hid)).symm
  · refine ⟨_, rfl, rfl, ?_, ?_, rfl, ?_⟩
    · simp [ClothingProduct.new, Product.meta, cloneData, jsOr_jsOr_self]
    · simp [ClothingProduct.new, Product.price, cloneData, normPrice,
        parseFloat, numOr0_idem]
    · intro hne hid
      exact hne (mkId_inj (show mkId s₂ = mkId s₁ from hid)).symm
  · refine ⟨_, rfl, rfl, ?_, ?_, rfl, ?_⟩
    · simp [BookProduct.new, Product.meta, cloneData, jsOr_jsOr_self]
    · simp [BookProduct.new, Product.price, cloneData, normPrice,
        parseFloat, numOr0_idem]
    · intro hne hid
      exact hne (mkId_inj (show mkId s₂ = mkId s₁ from hid)).symm

theorem clone_spec_amended_witness :
    ∃ q, cloneStep builtinRegistry ⟨1, 2⟩ (BookProduct.new ⟨0, 0⟩ duneData)
        = some (.ok q)
      ∧ q.variant = (BookProduct.new ⟨0, 0⟩ duneData).variant
      ∧ q.meta = (BookProduct.new ⟨0, 0⟩ duneData).meta
      ∧ q.price = (BookProduct.new ⟨0, 0⟩ duneData).price
      ∧ q.name = .vstr (jsToString (BookProduct.new ⟨0, 0⟩ duneData).name
          ++ " (clone)")
      ∧ ((⟨0, 0⟩ : IdSeed) ≠ ⟨1, 2⟩ →
          q.id ≠ (BookProduct.new ⟨0, 0⟩ duneData).id) :=
  clone_spec_amended "book" ⟨0, 0⟩ ⟨1, 2⟩ duneData
    (BookProduct.new ⟨0, 0⟩ duneData) (by with_unfolding_all rfl)

/-- C6: the book example — `{name:"Dune", price:"12.5", author:"Herbert",
pages:412}` creates a product with price 12.5 whose `describe()` renders
the exact quoted-name, two-decimal string. -/
theorem book_dune_example (seed : IdSeed) :
    ∃ p, ProductFactory.create builtinRegistry "book" seed duneData = .ok p
      ∧ p.price = .num 12.5
      ∧ p.describe = "\"Dune\" by Herbert — 412 pages — ₹12.50" := by
  refine ⟨_, rfl, ?_, ?_⟩ <;> with_unfolding_all rfl

/-- C7, counterexample: a present-but-zero `warrantyYears` is falsy, so
`warrantyYears || 1` replaces it by 1 — the default is not applied "only
when the field is missing", and the stored value is not the given one. -/
theorem warranty_zero_cex :
    (ElectronicsProduct.new ⟨0, 0⟩
        { name := .vstr "Fan", warrantyYears := .vnum (.num 0) }).warrantyYears
      = .vnum (.num 1)
    ∧ JSValue.vnum (.num 0) ≠ JSValue.undefined := by
  with_unfolding_all decide

/-- C7 (amended): brand is the given value when truthy, else "Unknown";
warrantyYears is the given value when truthy and defaults to 1 whenever the
field is falsy (missing, 0, NaN, or empty) — not only when missing, and
with no non-negativity or integrality check; the Fan example yields price 0
and warrantyYears 1. -/
theorem electronics_fields_amended (seed : IdSeed) (data : RawData) :
    (jsTruthy data.brand = true →
      (ElectronicsProduct.new seed data).brand = data.brand)
    ∧ (jsTruthy data.brand = false →
        (ElectronicsProduct.new seed data).brand = .vstr "Unknown")
    ∧ (jsTruthy data.warrantyYears = true →
        (ElectronicsProduct.new seed data).warrantyYears = data.warrantyYears)
    ∧ (jsTruthy data.warrantyYears = false →
        (ElectronicsProduct.new seed data).warrantyYears = .vnum (.num 1))
    ∧ ((ProductFactory.create builtinRegistry "electronics" seed
          { name := .vstr "Fan", price := .vstr "bad",
            brand := .vstr "Acme" }).toOption.map
          (fun p => (p.price, p.warrantyYears))
        = some (.num 0, .vnum (.num 1))) := by
  refine ⟨?_, ?_, ?_, ?_, ?_⟩
  · intro ht; simp [ElectronicsProduct.new, Product.brand, jsOr, ht]
  · intro hf; simp [ElectronicsProduct.new, Product.brand, jsOr, hf]
  · intro ht; simp [ElectronicsProduct.new, Product.warrantyYears, jsOr, ht]
  · intro hf; simp [ElectronicsProduct.new, Product.warrantyYears, jsOr, hf]
  · with_unfolding_all rfl

/-- C8, counterexample: the constructor does not validate the size — the
record `{size: "XXL"}` is stored as given, outside {S, M, L, XL}. -/
theorem size_unvalidated_cex :
    (ClothingProduct.new ⟨0, 0⟩ { name := .vstr "Robe", size := .vstr "XXL" }).size
      = .vstr "XXL"
    ∧ JSValue.vstr "XXL"
        ∉ [JSValue.vstr "S", JSValue.vstr "M", JSValue.vstr "L", JSValue.vstr "XL"] := by
  with_unfolding_all decide

/-- C8 (amended): size is the given value when truthy, defaulting to "M"
when the field is falsy (in particular when missing); it lies in
{S, M, L, XL} whenever the given value does, but no validation enforces
that set; material is the given value when truthy, else "Unknown". -/
theorem clothing_fields_amended (seed : IdSeed) (data : RawData) :
    (jsTruthy data.size = true → (ClothingProduct.new seed data).size = data.size)
    ∧ (jsTruthy data.size = false → (ClothingProduct.new seed data).size = .vstr "M")
    ∧ (data.size ∈ [JSValue.vstr "S", JSValue.vstr "M", JSValue.vstr "L",
          JSValue.vstr "XL"] →
        (ClothingProduct.new seed data).size
          ∈ [JSValue.vstr "S", JSValue.vstr "M", JSValue.vstr "L", JSValue.vstr "XL"])
    ∧ (jsTruthy data.material = true →
        (ClothingProduct.new seed data).material = data.material)
    ∧ (jsTruthy data.material = false →
        (ClothingProduct.new seed data).material = .vstr "Unknown") := by
  refine ⟨?_, ?_, ?_, ?_, ?_⟩
  · intro ht; simp [ClothingProduct.new, Product.size, jsOr, ht]
  · intro hf; simp [ClothingProduct.new, Product.size, jsOr, hf]
  · intro hm
    have ht : jsTruthy data.size = true := by
      simp only [List.mem_cons, List.not_mem_nil, or_false] at hm
      rcases hm with h | h | h | h <;> rw [h] <;> decide
    have hs : (ClothingProduct.new seed data).size = data.size := by
      simp [ClothingProduct.new, Product.size, jsOr, ht]
    rwa [hs]
  · intro ht; simp [ClothingProduct.new, Product.material, jsOr, ht]
  · intro hf; simp [ClothingProduct.new, Product.material, jsOr, hf]

lemma mapGet_some_mem (reg : Registry) (t : String) (c : ProductCreator)
    (h : mapGet reg t = some c) : (t, c) ∈ reg := by
  induction reg with
  | nil => simp [mapGet] at h
  | cons kv rest ih =>
    obtain ⟨k, v⟩ := kv
    by_cases hk : k = t
    · rw [mapGet, if_pos hk] at h
      obtain rfl := Option.some.injEq _ _ ▸ h
      simp [← hk, h.symm]
    · rw [mapGet, if_neg hk] at h
      exact List.mem_cons_of_mem _ (ih h)

/-- C9: invoking the base creation step directly fails with the
must-override error; and when every registered creator is a concrete
subclass (overrides `factoryMethod`), `registry.create` never raises it. -/
theorem must_override_unreachable (reg : Registry) (tag : String)
    (seed : IdSeed) (d : RawData)
    (h : ∀ pr ∈ reg, pr.2 ≠ ProductCreator.base) :
    ProductCreator.create .base seed d = .error .mustOverride
    ∧ ProductFactory.create reg tag seed d ≠ .error .mustOverride := by
  refine ⟨rfl, ?_⟩
  unfold ProductFactory.create
  cases hm : mapGet reg tag with
  | none => simp
  | some c =>
    have hc : c ≠ .base := h (tag, c) (mapGet_some_mem reg tag c hm)
    cases c with
    | base => exact absurd rfl hc
    | electronicsCreator =>
      simp [ProductCreator.create, ProductCreator.factoryMethod]
    | clothingCreator =>
      simp [ProductCreator.create, ProductCreator.factoryMethod]
    | bookCreator =>
      simp [ProductCreator.create, ProductCreator.factoryMethod]

theorem must_override_unreachable_witness :
    ProductCreator.create .base ⟨0, 0⟩ {} = .error .mustOverride
    ∧ ProductFactory.create builtinRegistry "book" ⟨0, 0⟩ {}
        ≠ .error .mustOverride :=
  must_override_unreachable builtinRegistry "book" ⟨0, 0⟩ {} (by decide)

/-- C10: at startup the registry maps exactly the three built-in tags, in
insertion order; `create("generic", …)` fails with the unregistered-type
error; and no registered tag produces the generic base variant. -/
theorem startup_registry (seed : IdSeed) (d : RawData) :
    ProductFactory.availableTypes builtinRegistry
      = ["electronics", "clothing", "book"]
    ∧ ProductFactory.create builtinRegistry "generic" seed d
        = .error (.unregisteredType "generic")
    ∧ (∀ tag p, ProductFactory.create builtinRegistry tag seed d = .ok p →
        p.variant ≠ Variant.generic) := by
  refine ⟨rfl, rfl, ?_⟩
  intro tag p h
  rcases builtin_create_cases tag seed d p h with ⟨_, rfl⟩ | ⟨_, rfl⟩ | ⟨_, rfl⟩ <;>
    simp [ElectronicsProduct.new, ClothingProduct.new, BookProduct.new,
      Product.variant]

end FactoryApp
